import Mathlib

/-!
Verification of the a11-dapp backend worker.

This file is a shallow embedding, in Lean 4, of the request-handling core of
the security-hardened Cloudflare Worker revision of the a11-dapp backend
(the revision with validation, sanitization and rate limiting; the spec's
design notes declare this revision authoritative and the earlier
near-duplicate worker copies superseded drafts).

Modelling conventions:
* JavaScript strings are Lean `String`s (lists of characters); `trim`,
  `slice`, `toLowerCase` are modelled for the ASCII range, which covers
  every character class the worker's validators accept.
* `Date.now()` and SQL `datetime('now')` are an abstract timestamp `now : Nat`
  (milliseconds for the rate limiter, an abstract clock for user rows).
* The D1 database is a list of rows; a parameterized `SELECT ... WHERE c = ?`
  with `.first()` is `List.find?`, an `UPDATE ... WHERE c = ?` is a `List.map`
  that rewrites the matching rows, an `INSERT` appends.
* Handlers that `throw` are modelled with `Except String`; the `catch` at the
  router boundary is an explicit function on `Except` values.
-/

namespace A11

/-! ### JavaScript string primitives (ASCII model) -/

/-- ASCII whitespace, the fragment of the JavaScript `\s` / `trim` whitespace
class that can occur in the worker's inputs of interest. -/
def isJsSpace (c : Char) : Bool :=
  c == ' ' || c == '\t' || c == '\n' || c == '\r' || c == '\x0b' || c == '\x0c'

/-- JavaScript `String.prototype.trim`: drop leading and trailing whitespace. -/
def jsTrim (s : List Char) : List Char :=
  (((s.dropWhile isJsSpace).reverse.dropWhile isJsSpace)).reverse

/-- Character-list core of `sanitizeString`. -/
def sanitizeChars (s : List Char) (maxLength : Nat) : List Char :=
  (jsTrim s).take maxLength

/-- Source `sanitizeString(input, maxLength)`: `input.trim().slice(0, maxLength)`.
Every call site in the worker passes `maxLength` explicitly. -/
def sanitizeString (s : String) (maxLength : Nat) : String :=
  ⟨sanitizeChars s.data maxLength⟩

/-- JavaScript `String.prototype.toLowerCase`, ASCII model: lower-case the
letters `A`–`Z`, leave everything else unchanged (`Char.toLower` does exactly
this). -/
def jsToLowerCase (s : String) : String :=
  ⟨s.data.map Char.toLower⟩

/-- One character of the regex class `[a-fA-F0-9]`, by code point. -/
def hexDigit (c : Char) : Bool :=
  (48 ≤ c.toNat && c.toNat ≤ 57) ||
  (97 ≤ c.toNat && c.toNat ≤ 102) ||
  (65 ≤ c.toNat && c.toNat ≤ 70)

/-- Character-list form of the anchored regex `^0x[a-fA-F0-9]{40}$`. -/
def ethAddrChars (cs : List Char) : Bool :=
  cs.length == 42 && cs.take 2 == ['0', 'x'] && (cs.drop 2).all hexDigit

/-- Source `isValidEthereumAddress`: `/^0x[a-fA-F0-9]{40}$/.test(address)`. -/
def isValidEthereumAddress (address : String) : Bool :=
  ethAddrChars address.data

/-- Characters allowed by the regex class `[^\s@]`. -/
def emailPartChar (c : Char) : Bool :=
  !isJsSpace c && c != '@'

/-- Source `isValidEmail`: `/^[^\s@]+@[^\s@]+\.[^\s@]+$/.test(email) && email.length <= 254`.
The regex holds exactly when the string splits at a unique `@` into a
non-empty local part and a domain part, both free of whitespace and `@`,
where the domain contains a `.` that is neither its first nor its last
character. -/
def isValidEmail (email : String) : Bool :=
  (match email.data.splitOn '@' with
   | [loc, dom] =>
       !loc.isEmpty && loc.all (fun c => !isJsSpace c) &&
       dom.all (fun c => !isJsSpace c) &&
       (dom.drop 1).dropLast.contains '.'
   | _ => false) &&
  email.data.length ≤ 254

/-- Body of the regex `[1-9]\d{1,14}` (first digit non-zero, then 1 to 14
further digits). -/
def phoneDigits (cs : List Char) : Bool :=
  match cs with
  | c :: rest =>
      (49 ≤ c.toNat && c.toNat ≤ 57) &&
      (1 ≤ rest.length && rest.length ≤ 14) &&
      rest.all (fun d => 48 ≤ d.toNat && d.toNat ≤ 57)
  | [] => false

/-- Source `isValidPhoneNumber`: `/^\+?[1-9]\d{1,14}$/.test(phone)`. -/
def isValidPhoneNumber (phone : String) : Bool :=
  match phone.data with
  | '+' :: rest => phoneDigits rest
  | cs => phoneDigits cs

/-- Source `validMethods` array inside `isValidAuthMethod`, verbatim —
note the mixed-case entry `inApp`. -/
def validMethods : List String :=
  ["metamask", "coinbase-wallet", "walletconnect", "inApp", "email", "phone",
   "google", "github", "microsoft", "discord", "x", "passkey", "guest", "wallet"]

/-- Source `isValidAuthMethod`: `validMethods.includes(method.toLowerCase())`. -/
def isValidAuthMethod (method : String) : Bool :=
  validMethods.contains (jsToLowerCase method)

/-! ### Rate limiter -/

/-- Source `RateLimitEntry`: `{ count: number; resetAt: number }` with
timestamps in milliseconds. -/
structure RateLimitEntry where
  count : Nat
  resetAt : Nat
deriving DecidableEq

/-- The in-memory `rateLimitStore : Map<string, RateLimitEntry>`, modelled as
an association list with at most one binding per key. -/
abbrev RateLimitStore := List (String × RateLimitEntry)

/-- `Map.get`. -/
def storeGet (store : RateLimitStore) (id : String) : Option RateLimitEntry :=
  (store.find? (fun p => p.1 == id)).map (·.2)

/-- `Map.set`: replace the binding for the key if present, else add one. -/
def storeSet : RateLimitStore → String → RateLimitEntry → RateLimitStore
  | [], id, e => [(id, e)]
  | p :: rest, id, e =>
      if p.1 == id then (id, e) :: rest else p :: storeSet rest id e

/-- Return value of `checkRateLimit`: `{ allowed: boolean; resetAt?: number }`. -/
structure RateLimitResult where
  allowed : Bool
  resetAt : Option Nat
deriving DecidableEq

/-- Source `checkRateLimit(identifier, maxRequests, windowSeconds)`, with the
mutation of `rateLimitStore` made explicit: the function takes the current
store and returns the updated one.  `now` is `Date.now()` in milliseconds. -/
def checkRateLimit (now : Nat) (store : RateLimitStore) (identifier : String)
    (maxRequests windowSeconds : Nat) : RateLimitResult × RateLimitStore :=
  match storeGet store identifier with
  | none =>
      let resetAt := now + windowSeconds * 1000
      (⟨true, some resetAt⟩, storeSet store identifier ⟨1, resetAt⟩)
  | some entry =>
      if entry.resetAt ≤ now then
        let resetAt := now + windowSeconds * 1000
        (⟨true, some resetAt⟩, storeSet store identifier ⟨1, resetAt⟩)
      else if maxRequests ≤ entry.count then
        (⟨false, some entry.resetAt⟩, store)
      else
        (⟨true, some entry.resetAt⟩, storeSet store identifier ⟨entry.count + 1, entry.resetAt⟩)

/-- Iterate `checkRateLimit` `n` times for the same identifier at the same
instant, threading the store (a burst of rapid requests). -/
def runChecks : Nat → Nat → RateLimitStore → String → Nat → Nat → RateLimitStore
  | 0, _, store, _, _, _ => store
  | n + 1, now, store, id, maxR, winS =>
      runChecks n now (checkRateLimit now store id maxR winS).2 id maxR winS

/-! ### Rows, request bodies and responses -/

/-- One row of the `users` table (the columns the hardened worker reads and
writes; `wallet_address` is `UNIQUE NOT NULL`, `auth_method` is `NOT NULL`,
the other text columns are nullable). -/
structure UserRow where
  wallet_address : String
  email : Option String
  phone_number : Option String
  display_name : Option String
  auth_method : String
  profile_image : Option String
  last_login_at : Nat
  login_count : Nat
  created_at : Nat
  updated_at : Nat
deriving DecidableEq

/-- One row of the `user_shares` table, as selected by the worker. -/
structure UserSharesRow where
  id : Nat
  wallet_address : String
  fund_id : Nat
  total_shares : Int
  cost_basis : Int
  initial_investment_date : Nat
deriving DecidableEq

/-- The JSON payload shapes the modelled endpoints produce. -/
inductive RespBody where
  | empty : RespBody
  | err : String → RespBody
  | errMsg : String → String → RespBody
  | userBody : UserRow → RespBody
  | userMsg : String → UserRow → RespBody
  | sharesBody : UserSharesRow → RespBody
deriving DecidableEq

/-- An HTTP response: status code and JSON body. -/
structure HttpResponse where
  status : Nat
  body : RespBody
deriving DecidableEq

/-- The 429 response of the router's rate-limiting block, including the
`Retry-After` and `X-RateLimit-Remaining` header values. -/
structure RateLimit429 where
  status : Nat
  body : RespBody
  retryAfter : String
  xRateLimitRemaining : String
deriving DecidableEq

/-- Source rate-limit rejection (router lines after `checkRateLimit`):
`resetInSeconds = Math.ceil((resetAt - Date.now()) / 1000)` when `resetAt`
is present (it always is later than `now` on a denial), else
`windowSeconds`; the `Retry-After` header is `resetInSeconds.toString()`. -/
def rateLimited429 (now : Nat) (result : RateLimitResult) (windowSeconds : Nat) : RateLimit429 :=
  let resetInSeconds :=
    match result.resetAt with
    | some r => (r - now + 999) / 1000
    | none => windowSeconds
  { status := 429,
    body := .errMsg "Rate limit exceeded"
      ("Too many requests. Please try again in " ++ toString resetInSeconds ++ " seconds."),
    retryAfter := toString resetInSeconds,
    xRateLimitRemaining := "0" }

/-- `SELECT * FROM users WHERE wallet_address = ?` with `.first()`. -/
def findUser (db : List UserRow) (addr : String) : Option UserRow :=
  db.find? (fun u => u.wallet_address == addr)

/-- Body of `POST /api/user` (`UserRequestBody`); `none` models an absent
(JSON `undefined`) field. -/
structure UserRequestBody where
  walletAddress : String
  email : Option String := none
  displayName : Option String := none
  authMethod : Option String := none
  profileImage : Option String := none

/-- Body of `POST /api/user/login` (`LoginRequestBody`). -/
structure LoginRequestBody where
  walletAddress : String
  authMethod : Option String := none
  email : Option String := none
  phoneNumber : Option String := none
  displayName : Option String := none
  profileImage : Option String := none

/-- The validation pattern `if (field && field !== "" && !valid(field))` for an
optional field: validation passes when the field is absent, empty, or valid. -/
def optionalOk (field : Option String) (valid : String → Bool) : Bool :=
  match field with
  | some s => s == "" || valid s
  | none => true

/-- The sanitization pattern `field && field !== "" ? f(field) : null`. -/
def optSanitized (field : Option String) (f : String → String) : Option String :=
  match field with
  | some s => if s == "" then none else some (f s)
  | none => none

/-- SQL `COALESCE(?, column)` for a nullable bound parameter. -/
def coalesce (v old : Option String) : Option String :=
  match v with
  | some s => some s
  | none => old

/-- JavaScript `value || dflt` on a nullable string (both `null` and `""` are
falsy). -/
def jsOr (v : Option String) (dflt : String) : String :=
  match v with
  | some s => if s == "" then dflt else s
  | none => dflt

/-- The `UPDATE` of the `POST /api/user` handler for an existing user:
`SET email = COALESCE(?, email), display_name = COALESCE(?, display_name),
auth_method = COALESCE(?, auth_method), profile_image = COALESCE(?, profile_image),
updated_at = datetime('now')`. -/
def upsertMerge (now : Nat) (emailValue displayNameValue authMethodValue profileImageValue : Option String)
    (u : UserRow) : UserRow :=
  { u with
    email := coalesce emailValue u.email,
    display_name := coalesce displayNameValue u.display_name,
    auth_method := (authMethodValue.getD u.auth_method),
    profile_image := coalesce profileImageValue u.profile_image,
    updated_at := now }

/-- Handler of `POST /api/user` (find-or-create on connect), hardened
revision: validate, sanitize, then `UPDATE ... COALESCE` an existing row or
`INSERT` a fresh one with `login_count = 1`.  Returns the response and the
resulting `users` table. -/
def handleUserUpsert (now : Nat) (db : List UserRow) (body : UserRequestBody) :
    HttpResponse × List UserRow :=
  if !isValidEthereumAddress body.walletAddress then
    ({ status := 400, body := .err "Invalid wallet address format" }, db)
  else if !optionalOk body.email isValidEmail then
    ({ status := 400, body := .err "Invalid email format" }, db)
  else if !optionalOk body.authMethod isValidAuthMethod then
    ({ status := 400, body := .err "Invalid authentication method" }, db)
  else
    let addr := jsToLowerCase body.walletAddress
    let emailValue := optSanitized body.email (fun e => sanitizeString (jsToLowerCase e) 254)
    let displayNameValue := optSanitized body.displayName (fun d => sanitizeString d 100)
    let authMethodValue := optSanitized body.authMethod (fun a => sanitizeString a 50)
    let profileImageValue := optSanitized body.profileImage (fun im => sanitizeString im 500)
    match findUser db addr with
    | some _ =>
        let db' := db.map fun v =>
          if v.wallet_address == addr then
            upsertMerge now emailValue displayNameValue authMethodValue profileImageValue v
          else v
        (match findUser db' addr with
         | some u' => ({ status := 200, body := .userBody u' }, db')
         | none => ({ status := 200, body := .empty }, db'))
    | none =>
        let newUser : UserRow :=
          { wallet_address := addr,
            email := emailValue,
            phone_number := none,
            display_name := some (jsOr displayNameValue "Web3 User"),
            auth_method := jsOr authMethodValue "wallet",
            profile_image := profileImageValue,
            last_login_at := now,
            login_count := 1,
            created_at := now,
            updated_at := now }
        ({ status := 200, body := .userBody newUser }, db ++ [newUser])

/-- The dynamic `UPDATE` of the `POST /api/user/login` handler: always
`last_login_at = datetime('now')`, `login_count = login_count + 1`,
`updated_at = datetime('now')`; each optional body field that is supplied and
non-empty overwrites its column with the sanitized value — except
`displayName`, which the source additionally skips when it equals the literal
`"Web3 User"`. -/
def loginTouch (now : Nat) (body : LoginRequestBody) (u : UserRow) : UserRow :=
  { u with
    last_login_at := now,
    login_count := u.login_count + 1,
    auth_method :=
      (match body.authMethod with
       | some a => if a == "" then u.auth_method else sanitizeString a 50
       | none => u.auth_method),
    email :=
      (match body.email with
       | some e => if e == "" then u.email else some (sanitizeString (jsToLowerCase e) 254)
       | none => u.email),
    phone_number :=
      (match body.phoneNumber with
       | some ph => if ph == "" then u.phone_number else some (sanitizeString ph 20)
       | none => u.phone_number),
    display_name :=
      (match body.displayName with
       | some d =>
           if d == "" || d == "Web3 User" then u.display_name
           else some (sanitizeString d 100)
       | none => u.display_name),
    profile_image :=
      (match body.profileImage with
       | some im => if im == "" then u.profile_image else some (sanitizeString im 500)
       | none => u.profile_image),
    updated_at := now }

/-- Handler of `POST /api/user/login` (login touch), hardened revision. -/
def handleUserLogin (now : Nat) (db : List UserRow) (body : LoginRequestBody) :
    HttpResponse × List UserRow :=
  if body.walletAddress == "" then
    ({ status := 400, body := .err "Wallet address is required" }, db)
  else if !isValidEthereumAddress body.walletAddress then
    ({ status := 400, body := .err "Invalid wallet address format" }, db)
  else if !optionalOk body.email isValidEmail then
    ({ status := 400, body := .err "Invalid email format" }, db)
  else if !optionalOk body.phoneNumber isValidPhoneNumber then
    ({ status := 400, body := .err "Invalid phone number format" }, db)
  else if !optionalOk body.authMethod isValidAuthMethod then
    ({ status := 400, body := .err "Invalid authentication method" }, db)
  else
    let addr := jsToLowerCase body.walletAddress
    match findUser db addr with
    | none => ({ status := 404, body := .err "User not found" }, db)
    | some _ =>
        let db' := db.map fun v =>
          if v.wallet_address == addr then loginTouch now body v else v
        match findUser db' addr with
        | some u' => ({ status := 200, body := .userMsg "Login tracked successfully" u' }, db')
        | none => ({ status := 200, body := .empty }, db')

/-- Core of the `GET /api/user/:address` route, applied to the final path
segment once the `/api/user/` prefix has matched.  The route's regex
`^\/api\/user\/0x[a-fA-F0-9]{40}$` must match the whole pathname for the
handler to run at all; otherwise the request falls through every route to the
final `404 {error:"Not found"}` response. -/
def userGetCore (seg : List Char) (db : List UserRow) : HttpResponse :=
  if ethAddrChars seg then
    let address : String := ⟨seg.map Char.toLower⟩
    if !isValidEthereumAddress address then
      { status := 400, body := .err "Invalid wallet address" }
    else
      match findUser db address with
      | none => { status := 404, body := .err "User not found" }
      | some u => { status := 200, body := .userBody u }
  else { status := 404, body := .err "Not found" }

/-- Router fragment for a `GET` request whose pathname starts with
`/api/user/`: dispatch to the user-lookup route when the address segment
matches the route regex, else fall through to the unmatched-route 404. -/
def handleGetUser (path : List Char) (db : List UserRow) : HttpResponse :=
  if path.take 10 == "/api/user/".data then userGetCore (path.drop 10) db
  else { status := 404, body := .err "Not found" }

/-- The pathname `/api/user/` followed by an address segment. -/
def userGetPath (addr : String) : List Char :=
  "/api/user/".data ++ addr.data

/-- Accumulator step selecting the row with the smaller `id` (keeping the
earlier row on ties, which cannot occur for a primary key). -/
def minById (acc : Option UserSharesRow) (r : UserSharesRow) : Option UserSharesRow :=
  match acc with
  | none => some r
  | some b => if r.id < b.id then some r else some b

/-- `SELECT ... FROM user_shares ORDER BY id ASC LIMIT 1` with `.first()`:
the row with the smallest `id` (the table's primary key), if any. -/
def firstByIdAsc (db : List UserSharesRow) : Option UserSharesRow :=
  db.foldl minById none

/-- Handler of `GET /api/user-shares/:wallet` after route match and address
validation: look the wallet up; if absent, fall back to the first row of the
table by ascending `id`; 404 only when that is also absent. -/
def getUserShares (db : List UserSharesRow) (wallet : String) : HttpResponse :=
  match db.find? (fun r => r.wallet_address == wallet) with
  | some r => { status := 200, body := .sharesBody r }
  | none =>
      match firstByIdAsc db with
      | some r => { status := 200, body := .sharesBody r }
      | none => { status := 404, body := .err "No user shares data available" }

/-- One row of the `fund_performance` table; `date` is totally ordered. -/
structure PerfRow where
  fund_id : Nat
  date : Nat
  nav_per_share : Int
  total_aum : Int
  daily_return : Int
deriving DecidableEq

/-- Query of `GET /api/fund-performance/:id?days=N` after validation:
`SELECT ... WHERE fund_id = ? ORDER BY date DESC LIMIT ?` followed by the
handler's `results.reverse()`. -/
def getFundPerformance (db : List PerfRow) (fundId days : Nat) : List PerfRow :=
  let filtered := db.filter (fun r => r.fund_id == fundId)
  let sorted := List.insertionSort (fun a b => b.date ≤ a.date) filtered
  (sorted.take days).reverse

/-- The generic 500 response of the hardened catch handler, with no exception
detail in the payload. -/
def internalErrorResp : HttpResponse :=
  { status := 500,
    body := .errMsg "Internal server error"
      "An unexpected error occurred. Please try again later." }

/-- The `try/catch` at the router boundary of the hardened revision: a thrown
error (its message carried as a string) is logged and mapped to the generic
500 response; a normal response passes through. -/
def fetchCatch (result : Except String HttpResponse) : HttpResponse :=
  match result with
  | .ok resp => resp
  | .error _ => internalErrorResp

instance : IsTotal PerfRow (fun a b => b.date ≤ a.date) :=
  ⟨fun a b => Nat.le_total b.date a.date⟩

instance : IsTrans PerfRow (fun a b => b.date ≤ a.date) :=
  ⟨fun _ _ _ hab hbc => Nat.le_trans hbc hab⟩

/-! ### Concrete fixtures for witnesses and counterexamples -/

/-- Fixture: a stored user row for the `POST /api/user` and login claims. -/
def c1StoredUser : UserRow :=
  { wallet_address := "0xaaaaaaaaaaaaaaaaaaaaaaaaaaaaaaaaaaaaaaaa",
    email := some "old@example.com",
    phone_number := some "+15551234567",
    display_name := some "Alice",
    auth_method := "metamask",
    profile_image := none,
    last_login_at := 1,
    login_count := 3,
    created_at := 1,
    updated_at := 1 }

/-- Fixture: a `POST /api/user` body with only the wallet address. -/
def c1MinimalBody : UserRequestBody :=
  { walletAddress := "0xaaaaaaaaaaaaaaaaaaaaaaaaaaaaaaaaaaaaaaaa" }

/-- Fixture: a `POST /api/user` body that also supplies an email. -/
def c1EmailBody : UserRequestBody :=
  { walletAddress := "0xaaaaaaaaaaaaaaaaaaaaaaaaaaaaaaaaaaaaaaaa",
    email := some "new@example.com" }

/-- Fixture: a login body whose `displayName` is exactly `"Web3 User"`. -/
def c2DefaultNameBody : LoginRequestBody :=
  { walletAddress := "0xaaaaaaaaaaaaaaaaaaaaaaaaaaaaaaaaaaaaaaaa",
    displayName := some "Web3 User" }

/-- Fixture: a full login body for the C2 witness. -/
def c2WitnessBody : LoginRequestBody :=
  { walletAddress := "0xAAAAAAAAAAAAAAAAAAAAAAAAAAAAAAAAAAAAAAAA",
    authMethod := some "google",
    email := some "NEW@Example.COM",
    phoneNumber := some "+15559876543",
    displayName := some "  Bob  ",
    profileImage := some "https://img.example/pic.png" }

/-- Fixture: a `user_shares` row with the smallest `id`. -/
def c4RowA : UserSharesRow :=
  { id := 1,
    wallet_address := "0xbbbbbbbbbbbbbbbbbbbbbbbbbbbbbbbbbbbbbbbb",
    fund_id := 1,
    total_shares := 100,
    cost_basis := 5000,
    initial_investment_date := 1000 }

/-- Fixture: a second `user_shares` row. -/
def c4RowB : UserSharesRow :=
  { id := 2,
    wallet_address := "0xcccccccccccccccccccccccccccccccccccccccc",
    fund_id := 1,
    total_shares := 50,
    cost_basis := 2500,
    initial_investment_date := 2000 }

/-- Fixture: a fund with 30 stored daily performance rows (dates 1 to 30). -/
def c5Db : List PerfRow :=
  (List.range 30).map fun i =>
    { fund_id := 1, date := i + 1, nav_per_share := 0, total_aum := 0, daily_return := 0 }

/-- Fixture: a stored user for the `GET /api/user/:address` witness. -/
def c8User : UserRow :=
  { wallet_address := "0xabcdef0123456789abcdef0123456789abcdef01",
    email := none,
    phone_number := none,
    display_name := some "Carol",
    auth_method := "wallet",
    profile_image := none,
    last_login_at := 4,
    login_count := 2,
    created_at := 4,
    updated_at := 4 }

/-! ### Helper lemmas -/

theorem dropWhile_self_of_head (p : Char → Bool) (l : List Char)
    (h : ∀ x, l.head? = some x → p x = false) : l.dropWhile p = l := by
  cases l with
  | nil => rfl
  | cons a t => exact List.dropWhile_cons_of_neg (by simp [h a rfl])

theorem dropWhile_dropWhile (p : Char → Bool) (l : List Char) :
    (l.dropWhile p).dropWhile p = l.dropWhile p := by
  apply dropWhile_self_of_head
  intro x hx
  have hd := List.head?_dropWhile_not p l
  rw [hx] at hd
  exact hd

theorem jsTrim_idem (l : List Char) : jsTrim (jsTrim l) = jsTrim l := by
  unfold jsTrim
  obtain ⟨t, ht⟩ :=
    List.dropWhile_suffix (l := (l.dropWhile isJsSpace).reverse) isJsSpace
  have hstep1 :
      ((l.dropWhile isJsSpace).reverse.dropWhile isJsSpace).reverse.dropWhile isJsSpace
        = ((l.dropWhile isJsSpace).reverse.dropWhile isJsSpace).reverse := by
    apply dropWhile_self_of_head
    intro x hx
    have hA : l.dropWhile isJsSpace
        = ((l.dropWhile isJsSpace).reverse.dropWhile isJsSpace).reverse ++ t.reverse := by
      have := congrArg List.reverse ht
      simpa [List.reverse_append] using this.symm
    have hhead := List.head?_dropWhile_not isJsSpace l
    rw [hA, List.head?_append, hx] at hhead
    exact hhead
  rw [hstep1, List.reverse_reverse, dropWhile_dropWhile]

theorem length_jsTrim_le (l : List Char) : (jsTrim l).length ≤ l.length := by
  unfold jsTrim
  simp only [List.length_reverse]
  calc ((l.dropWhile isJsSpace).reverse.dropWhile isJsSpace).length
      ≤ (l.dropWhile isJsSpace).reverse.length :=
        (List.dropWhile_sublist isJsSpace).length_le
    _ = (l.dropWhile isJsSpace).length := List.length_reverse _
    _ ≤ l.length := (List.dropWhile_sublist isJsSpace).length_le

/-! ### Claim C6 -/

/-- C6 (code bug): the source's own `validMethods` array contains the enum
entry `inApp`, yet `isValidAuthMethod` lower-cases its argument before an
exact-match `includes` lookup, so every casing of `inApp` — including the
array's own spelling — is rejected, while all-lower-case methods accept any
casing.  The claim (and the spec's §3 enum) expects `inApp` to be accepted. -/
theorem c6_isValidAuthMethod_inApp_rejected :
    "inApp" ∈ validMethods ∧
    isValidAuthMethod "inApp" = false ∧
    isValidAuthMethod "INAPP" = false ∧
    isValidAuthMethod "inapp" = false ∧
    isValidAuthMethod "InApp" = false ∧
    isValidAuthMethod "metamask" = true ∧
    isValidAuthMethod "METAMASK" = true ∧
    isValidAuthMethod "myspace" = false := by decide

/-! ### Claim C7 -/

/-- C7 counterexample: `sanitizeString` is not idempotent — truncation can
expose trailing whitespace that a second application trims away.  With
`s = "ab cd"` and `n = 3` the first application yields `"ab "` and the second
`"ab"`. -/
theorem c7_counterexample :
    sanitizeString (sanitizeString "ab cd" 3) 3 ≠ sanitizeString "ab cd" 3 := by
  decide

/-- C7 amended: applying `sanitizeString` twice equals trimming the first
result once (the second truncation is a no-op because the first already cut
the string to at most `n` characters); consequently idempotence does hold
whenever the trimmed input fits within `n` code units, i.e. whenever the
first application does not truncate. -/
theorem c7_sanitizeString_round_trip (s : String) (n : Nat) :
    sanitizeString (sanitizeString s n) n = ⟨jsTrim (sanitizeString s n).data⟩ ∧
    ((jsTrim s.data).length ≤ n →
      sanitizeString (sanitizeString s n) n = sanitizeString s n) := by
  constructor
  · show (⟨(jsTrim ((jsTrim s.data).take n)).take n⟩ : String) = _
    have hlen : (jsTrim ((jsTrim s.data).take n)).length ≤ n := by
      calc (jsTrim ((jsTrim s.data).take n)).length
          ≤ ((jsTrim s.data).take n).length := length_jsTrim_le _
        _ ≤ n := by
            rw [List.length_take]
            exact Nat.min_le_left _ _
    rw [List.take_of_length_le hlen]
    rfl
  · intro h
    have h1 : sanitizeString s n = ⟨jsTrim s.data⟩ := by
      show (⟨(jsTrim s.data).take n⟩ : String) = _
      rw [List.take_of_length_le h]
    rw [h1]
    show (⟨(jsTrim (jsTrim s.data)).take n⟩ : String) = _
    rw [jsTrim_idem, List.take_of_length_le h]

/-- C7 witness: at `s = "  hello  "`, `n = 10` the trimmed string fits and the
round trip is the identity. -/
theorem c7_round_trip_witness :
    (jsTrim "  hello  ".data).length ≤ 10 ∧
    sanitizeString (sanitizeString "  hello  " 10) 10 = sanitizeString "  hello  " 10 :=
  ⟨by decide, (c7_sanitizeString_round_trip "  hello  " 10).2 (by decide)⟩

theorem storeGet_storeSet_self (store : RateLimitStore) (id : String) (e : RateLimitEntry) :
    storeGet (storeSet store id e) id = some e := by
  induction store with
  | nil => simp [storeSet, storeGet]
  | cons p rest ih =>
      by_cases h : p.1 == id
      · rw [storeGet, storeSet, if_pos h, List.find?_cons_of_pos _ (by simp)]
        rfl
      · rw [storeGet, storeSet, if_neg h,
          @List.find?_cons_of_neg _ (fun q => q.1 == id) p (storeSet rest id e) h]
        exact ih

theorem mem_storeSet (store : RateLimitStore) (id : String) (e : RateLimitEntry) :
    ∀ q ∈ storeSet store id e, q = (id, e) ∨ q ∈ store := by
  induction store with
  | nil =>
      intro q hq
      rw [storeSet] at hq
      exact Or.inl (by simpa using hq)
  | cons p rest ih =>
      intro q hq
      by_cases h : p.1 == id
      · rw [storeSet, if_pos h] at hq
        rcases List.mem_cons.mp hq with hq' | hq'
        · exact Or.inl hq'
        · exact Or.inr (List.mem_cons_of_mem _ hq')
      · rw [storeSet, if_neg h] at hq
        rcases List.mem_cons.mp hq with hq' | hq'
        · exact Or.inr (by simp [hq'])
        · rcases ih q hq' with h2 | h2
          · exact Or.inl h2
          · exact Or.inr (List.mem_cons_of_mem _ h2)

/-! ### Claim C3 -/

set_option maxRecDepth 100000 in
/-- C3: `checkRateLimit` follows exactly the three specified steps — reset and
allow on a missing or expired entry, increment and allow below the limit, deny
and report the stored `resetAt` at the limit; and in the concrete scenario of
101 rapid requests from one client against a 100-per-60-seconds limiter, the
101st request is denied and answered with status 429 and a numeric
`Retry-After` header (here `"60"`).  Timestamps are in milliseconds, so the
stored reset instant `now + windowSeconds * 1000` is the spec's
`now + windowSeconds` expressed in ms. -/
theorem c3_checkRateLimit_steps (now : Nat) (store : RateLimitStore) (id : String)
    (maxR winS : Nat) :
    (storeGet store id = none →
      checkRateLimit now store id maxR winS =
        (⟨true, some (now + winS * 1000)⟩, storeSet store id ⟨1, now + winS * 1000⟩)) ∧
    (∀ e, storeGet store id = some e → e.resetAt ≤ now →
      checkRateLimit now store id maxR winS =
        (⟨true, some (now + winS * 1000)⟩, storeSet store id ⟨1, now + winS * 1000⟩)) ∧
    (∀ e, storeGet store id = some e → now < e.resetAt → e.count < maxR →
      checkRateLimit now store id maxR winS =
        (⟨true, some e.resetAt⟩, storeSet store id ⟨e.count + 1, e.resetAt⟩)) ∧
    (∀ e, storeGet store id = some e → now < e.resetAt → maxR ≤ e.count →
      checkRateLimit now store id maxR winS = (⟨false, some e.resetAt⟩, store)) ∧
    ((checkRateLimit 0 (runChecks 100 0 [] "203.0.113.7" 100 60) "203.0.113.7" 100 60).1.allowed
        = false ∧
     rateLimited429 0
        (checkRateLimit 0 (runChecks 100 0 [] "203.0.113.7" 100 60) "203.0.113.7" 100 60).1 60 =
       ⟨429,
        .errMsg "Rate limit exceeded" "Too many requests. Please try again in 60 seconds.",
        "60", "0"⟩ ∧
     ∃ k : Nat,
       (rateLimited429 0
          (checkRateLimit 0 (runChecks 100 0 [] "203.0.113.7" 100 60) "203.0.113.7" 100 60).1
          60).retryAfter = toString k) := by
  refine ⟨?_, ?_, ?_, ?_, by decide, by decide, ⟨60, by decide⟩⟩
  · intro h
    simp [checkRateLimit, h]
  · intro e he hle
    simp [checkRateLimit, he, hle]
  · intro e he h1 h2
    have hni : ¬ (e.resetAt ≤ now) := by omega
    have hc : ¬ (maxR ≤ e.count) := by omega
    simp [checkRateLimit, he, hni, hc]
  · intro e he h1 h2
    have hni : ¬ (e.resetAt ≤ now) := by omega
    simp [checkRateLimit, he, hni, h2]

/-- C3 witness: the reset step applied to an empty store. -/
theorem c3_checkRateLimit_steps_witness :
    checkRateLimit 7 [] "a" 100 60 =
      (⟨true, some (7 + 60 * 1000)⟩, storeSet [] "a" ⟨1, 7 + 60 * 1000⟩) :=
  (c3_checkRateLimit_steps 7 [] "a" 100 60).1 rfl

/-! ### Claim C10 -/

/-- C10: whenever no rate-limit entry exists for an identifier, or the stored
window has expired, `checkRateLimit` allows the request and stores an entry
with `count = 1` — for every `maxRequests`, including 0 — so the limit is
enforced only from the second request of a window onward; and every entry in
the store has `count ≥ 1`, preserved by every call. -/
theorem c10_new_window_always_allows (now : Nat) (store : RateLimitStore) (id : String)
    (maxR winS : Nat) :
    ((storeGet store id = none ∨ ∃ e, storeGet store id = some e ∧ e.resetAt ≤ now) →
      (checkRateLimit now store id maxR winS).1.allowed = true ∧
      storeGet (checkRateLimit now store id maxR winS).2 id =
        some ⟨1, now + winS * 1000⟩) ∧
    ((∀ q ∈ store, 1 ≤ q.2.count) →
      ∀ q ∈ (checkRateLimit now store id maxR winS).2, 1 ≤ q.2.count) := by
  constructor
  · rintro (h | ⟨e, he, hle⟩)
    · constructor
      · simp [checkRateLimit, h]
      · simp [checkRateLimit, h, storeGet_storeSet_self]
    · constructor
      · simp [checkRateLimit, he, hle]
      · simp [checkRateLimit, he, hle, storeGet_storeSet_self]
  · intro hinv q hq
    rcases hget : storeGet store id with _ | e
    · simp only [checkRateLimit, hget] at hq
      rcases mem_storeSet _ _ _ q hq with hq' | hq'
      · subst hq'
        exact Nat.le_refl 1
      · exact hinv q hq'
    · by_cases h1 : e.resetAt ≤ now
      · simp only [checkRateLimit, hget, h1, if_true] at hq
        rcases mem_storeSet _ _ _ q hq with hq' | hq'
        · subst hq'
          exact Nat.le_refl 1
        · exact hinv q hq'
      · by_cases h2 : maxR ≤ e.count
        · simp only [checkRateLimit, hget, h1, h2, if_true, if_false] at hq
          exact hinv q hq
        · simp only [checkRateLimit, hget, h1, h2, if_false] at hq
          rcases mem_storeSet _ _ _ q hq with hq' | hq'
          · subst hq'
            exact Nat.le_add_left 1 _
          · exact hinv q hq'

/-- C10 witness: an empty store and `maxRequests = 0` — the first request is
still allowed and stored with `count = 1`, and the count invariant holds. -/
theorem c10_new_window_witness :
    (checkRateLimit 5 [] "a" 0 60).1.allowed = true ∧
    storeGet (checkRateLimit 5 [] "a" 0 60).2 "a" = some ⟨1, 5 + 60 * 1000⟩ ∧
    (∀ q ∈ (checkRateLimit 5 [] "a" 0 60).2, 1 ≤ q.2.count) := by
  have h := c10_new_window_always_allows 5 [] "a" 0 60
  exact ⟨(h.1 (Or.inl rfl)).1, (h.1 (Or.inl rfl)).2, h.2 (by simp)⟩

theorem findUser_map_update (db : List UserRow) (addr : String) (f : UserRow → UserRow)
    (hf : ∀ v, (f v).wallet_address = v.wallet_address) (u : UserRow)
    (h : findUser db addr = some u) :
    findUser (db.map fun v => if v.wallet_address == addr then f v else v) addr
      = some (f u) := by
  induction db with
  | nil => simp [findUser] at h
  | cons v rest ih =>
      by_cases hv : v.wallet_address == addr
      · rw [findUser, @List.find?_cons_of_pos _ (fun w => w.wallet_address == addr) v rest hv] at h
        injection h with hvu
        rw [List.map_cons, if_pos hv, findUser,
          @List.find?_cons_of_pos _ (fun w => w.wallet_address == addr) (f v) _
            (by show ((f v).wallet_address == addr) = true
                rw [hf v]
                exact hv)]
        rw [hvu]
      · rw [findUser, @List.find?_cons_of_neg _ (fun w => w.wallet_address == addr) v rest hv] at h
        rw [List.map_cons, if_neg hv, findUser,
          @List.find?_cons_of_neg _ (fun w => w.wallet_address == addr) v _ hv]
        exact ih h

theorem beq_empty_false_of_validAddr (s : String)
    (hw : isValidEthereumAddress s = true) : (s == "") = false := by
  cases hb : s == ""
  · rfl
  · exfalso
    have hs : s = "" := eq_of_beq hb
    rw [hs] at hw
    exact absurd hw (by decide)

/-! ### Claim C1 -/

/-- C1 counterexample: for an existing user, `POST /api/user` does not leave
the stored row unchanged.  Even a body carrying nothing but the wallet address
rewrites `updated_at` to the current time, and a body supplying an email
overwrites the stored email. -/
theorem c1_counterexample :
    (handleUserUpsert 2 [c1StoredUser] c1MinimalBody).2 ≠ [c1StoredUser] ∧
    (handleUserUpsert 2 [c1StoredUser] c1MinimalBody).2.map UserRow.updated_at = [2] ∧
    c1StoredUser.updated_at = 1 ∧
    (handleUserUpsert 2 [c1StoredUser] c1EmailBody).2.map UserRow.email
      = [some "new@example.com"] ∧
    c1StoredUser.email = some "old@example.com" := by
  decide

/-- C1 amended: for an existing user, `POST /api/user` does not increment
`login_count` and leaves `last_login_at`, `created_at`, `phone_number` and
`wallet_address` unchanged; but it stamps `updated_at = now`, and each
optional field that is supplied and non-empty overwrites the stored value
with its sanitized form (absent or empty fields are kept via `COALESCE`).
The handler answers 200 with the updated row. -/
theorem c1_upsert_existing_user (now : Nat) (db : List UserRow) (body : UserRequestBody)
    (u : UserRow)
    (hw : isValidEthereumAddress body.walletAddress = true)
    (he : optionalOk body.email isValidEmail = true)
    (ha : optionalOk body.authMethod isValidAuthMethod = true)
    (hu : findUser db (jsToLowerCase body.walletAddress) = some u) :
    (handleUserUpsert now db body).1.status = 200 ∧
    ∃ u', findUser (handleUserUpsert now db body).2 (jsToLowerCase body.walletAddress)
        = some u' ∧
      (handleUserUpsert now db body).1.body = .userBody u' ∧
      u'.login_count = u.login_count ∧
      u'.last_login_at = u.last_login_at ∧
      u'.created_at = u.created_at ∧
      u'.phone_number = u.phone_number ∧
      u'.wallet_address = u.wallet_address ∧
      u'.updated_at = now ∧
      (∀ e, body.email = some e → e ≠ "" →
        u'.email = some (sanitizeString (jsToLowerCase e) 254)) ∧
      ((body.email = none ∨ body.email = some "") → u'.email = u.email) ∧
      (∀ d, body.displayName = some d → d ≠ "" →
        u'.display_name = some (sanitizeString d 100)) ∧
      ((body.displayName = none ∨ body.displayName = some "") →
        u'.display_name = u.display_name) ∧
      (∀ a, body.authMethod = some a → a ≠ "" →
        u'.auth_method = sanitizeString a 50) ∧
      ((body.authMethod = none ∨ body.authMethod = some "") →
        u'.auth_method = u.auth_method) ∧
      (∀ im, body.profileImage = some im → im ≠ "" →
        u'.profile_image = some (sanitizeString im 500)) ∧
      ((body.profileImage = none ∨ body.profileImage = some "") →
        u'.profile_image = u.profile_image) := by
  have hu' := findUser_map_update db (jsToLowerCase body.walletAddress)
    (upsertMerge now
      (optSanitized body.email (fun e => sanitizeString (jsToLowerCase e) 254))
      (optSanitized body.displayName (fun d => sanitizeString d 100))
      (optSanitized body.authMethod (fun a => sanitizeString a 50))
      (optSanitized body.profileImage (fun im => sanitizeString im 500)))
    (fun _ => rfl) u hu
  have hred : handleUserUpsert now db body =
      ({ status := 200,
         body := .userBody (upsertMerge now
           (optSanitized body.email (fun e => sanitizeString (jsToLowerCase e) 254))
           (optSanitized body.displayName (fun d => sanitizeString d 100))
           (optSanitized body.authMethod (fun a => sanitizeString a 50))
           (optSanitized body.profileImage (fun im => sanitizeString im 500)) u) },
       db.map fun v =>
         if v.wallet_address == jsToLowerCase body.walletAddress then
           upsertMerge now
             (optSanitized body.email (fun e => sanitizeString (jsToLowerCase e) 254))
             (optSanitized body.displayName (fun d => sanitizeString d 100))
             (optSanitized body.authMethod (fun a => sanitizeString a 50))
             (optSanitized body.profileImage (fun im => sanitizeString im 500)) v
         else v) := by
    rw [handleUserUpsert]
    rw [hw, he, ha]
    simp only [Bool.not_true, Bool.false_eq_true, if_false]
    rw [hu, hu']
  rw [hred, hu']
  refine ⟨rfl, _, rfl, rfl, rfl, rfl, rfl, rfl, rfl, rfl, ?_, ?_, ?_, ?_, ?_, ?_, ?_, ?_⟩
  · intro e hbe hne
    simp [upsertMerge, coalesce, optSanitized, hbe, hne]
  · rintro (hbe | hbe) <;> simp [upsertMerge, coalesce, optSanitized, hbe]
  · intro d hbd hnd
    simp [upsertMerge, coalesce, optSanitized, hbd, hnd]
  · rintro (hbd | hbd) <;> simp [upsertMerge, coalesce, optSanitized, hbd]
  · intro a hba hna
    simp [upsertMerge, optSanitized, hba, hna]
  · rintro (hba | hba) <;> simp [upsertMerge, optSanitized, hba]
  · intro im hbi hni
    simp [upsertMerge, coalesce, optSanitized, hbi, hni]
  · rintro (hbi | hbi) <;> simp [upsertMerge, coalesce, optSanitized, hbi]

/-- C1 witness: the amended theorem applied to a concrete store and body (a
mixed-case wallet address, a new email, no other optional fields). -/
theorem c1_upsert_existing_witness :
    (handleUserUpsert 10 [c1StoredUser] c1EmailBody).1.status = 200 ∧
    (∃ u', findUser (handleUserUpsert 10 [c1StoredUser] c1EmailBody).2
        (jsToLowerCase c1EmailBody.walletAddress) = some u' ∧
      u'.login_count = c1StoredUser.login_count) := by
  obtain ⟨h1, u', h2, _h3, h4, _h5⟩ :=
    c1_upsert_existing_user 10 [c1StoredUser] c1EmailBody c1StoredUser
      (by decide) (by decide) (by decide) (by decide)
  exact ⟨h1, u', h2, h4⟩

/-! ### Claim C2 -/

/-- C2 counterexample: `POST /api/user/login` does not overwrite every
supplied non-empty optional field — a supplied `displayName` equal to
`"Web3 User"` is silently ignored, so the stored name stays `"Alice"`. -/
theorem c2_counterexample :
    (handleUserLogin 2 [c1StoredUser] c2DefaultNameBody).1.status = 200 ∧
    (handleUserLogin 2 [c1StoredUser] c2DefaultNameBody).2.map UserRow.display_name
      = [some "Alice"] ∧
    (handleUserLogin 2 [c1StoredUser] c2DefaultNameBody).2.map UserRow.display_name
      ≠ [some (sanitizeString "Web3 User" 100)] := by
  decide

/-- C2 amended: for an existing user, `POST /api/user/login` increments
`login_count`, sets `last_login_at` and `updated_at` to now, overwrites each
supplied non-empty optional field with its sanitized value — except that a
supplied `displayName` equal to the literal `"Web3 User"` is ignored — and
leaves absent or empty optional fields untouched (never overwritten with
null). -/
theorem c2_login_touch (now : Nat) (db : List UserRow) (body : LoginRequestBody) (u : UserRow)
    (hw : isValidEthereumAddress body.walletAddress = true)
    (he : optionalOk body.email isValidEmail = true)
    (hp : optionalOk body.phoneNumber isValidPhoneNumber = true)
    (ha : optionalOk body.authMethod isValidAuthMethod = true)
    (hu : findUser db (jsToLowerCase body.walletAddress) = some u) :
    (handleUserLogin now db body).1.status = 200 ∧
    ∃ u', findUser (handleUserLogin now db body).2 (jsToLowerCase body.walletAddress)
        = some u' ∧
      (handleUserLogin now db body).1.body = .userMsg "Login tracked successfully" u' ∧
      u'.login_count = u.login_count + 1 ∧
      u'.last_login_at = now ∧
      u'.updated_at = now ∧
      u'.created_at = u.created_at ∧
      u'.wallet_address = u.wallet_address ∧
      (∀ a, body.authMethod = some a → a ≠ "" → u'.auth_method = sanitizeString a 50) ∧
      ((body.authMethod = none ∨ body.authMethod = some "") →
        u'.auth_method = u.auth_method) ∧
      (∀ e, body.email = some e → e ≠ "" →
        u'.email = some (sanitizeString (jsToLowerCase e) 254)) ∧
      ((body.email = none ∨ body.email = some "") → u'.email = u.email) ∧
      (∀ ph, body.phoneNumber = some ph → ph ≠ "" →
        u'.phone_number = some (sanitizeString ph 20)) ∧
      ((body.phoneNumber = none ∨ body.phoneNumber = some "") →
        u'.phone_number = u.phone_number) ∧
      (∀ d, body.displayName = some d → d ≠ "" → d ≠ "Web3 User" →
        u'.display_name = some (sanitizeString d 100)) ∧
      ((body.displayName = none ∨ body.displayName = some "" ∨
          body.displayName = some "Web3 User") →
        u'.display_name = u.display_name) ∧
      (∀ im, body.profileImage = some im → im ≠ "" →
        u'.profile_image = some (sanitizeString im 500)) ∧
      ((body.profileImage = none ∨ body.profileImage = some "") →
        u'.profile_image = u.profile_image) := by
  have hnz : (body.walletAddress == "") = false := beq_empty_false_of_validAddr _ hw
  have hu' := findUser_map_update db (jsToLowerCase body.walletAddress)
    (loginTouch now body) (fun _ => rfl) u hu
  have hred : handleUserLogin now db body =
      ({ status := 200,
         body := .userMsg "Login tracked successfully" (loginTouch now body u) },
       db.map fun v =>
         if v.wallet_address == jsToLowerCase body.walletAddress then
           loginTouch now body v
         else v) := by
    rw [handleUserLogin]
    rw [hnz, hw, he, hp, ha]
    simp only [Bool.not_true, Bool.false_eq_true, if_false]
    rw [hu, hu']
  rw [hred, hu']
  refine ⟨rfl, _, rfl, rfl, rfl, rfl, rfl, rfl, rfl, ?_, ?_, ?_, ?_, ?_, ?_, ?_, ?_, ?_, ?_⟩
  · intro a hba hna
    simp [loginTouch, hba, hna]
  · rintro (hba | hba) <;> simp [loginTouch, hba]
  · intro e hbe hne
    simp [loginTouch, hbe, hne]
  · rintro (hbe | hbe) <;> simp [loginTouch, hbe]
  · intro ph hbp hnp
    simp [loginTouch, hbp, hnp]
  · rintro (hbp | hbp) <;> simp [loginTouch, hbp]
  · intro d hbd hnd hnw
    simp [loginTouch, hbd, hnd, hnw]
  · rintro (hbd | hbd | hbd) <;> simp [loginTouch, hbd]
  · intro im hbi hni
    simp [loginTouch, hbi, hni]
  · rintro (hbi | hbi) <;> simp [loginTouch, hbi]

/-- C2 witness: the amended theorem applied to a concrete store and body. -/
theorem c2_login_touch_witness :
    (handleUserLogin 10 [c1StoredUser] c2WitnessBody).1.status = 200 ∧
    (∃ u', findUser (handleUserLogin 10 [c1StoredUser] c2WitnessBody).2
        (jsToLowerCase c2WitnessBody.walletAddress) = some u' ∧
      u'.login_count = c1StoredUser.login_count + 1) := by
  obtain ⟨h1, u', h2, _h3, h4, _h5⟩ :=
    c2_login_touch 10 [c1StoredUser] c2WitnessBody c1StoredUser
      (by decide) (by decide) (by decide) (by decide) (by decide)
  exact ⟨h1, u', h2, h4⟩

/-! ### Claim C9 -/

/-- C9: a thrown handler error (including a database failure) is mapped by the
router's catch block to the fixed generic 500 response.  The response does not
depend on the exception value at all, so no exception detail, message or stack
trace reaches the client. -/
theorem c9_catch_maps_to_generic_500 (e : String) :
    fetchCatch (Except.error e) = internalErrorResp ∧
    (fetchCatch (Except.error e)).status = 500 ∧
    (fetchCatch (Except.error e)).body =
      RespBody.errMsg "Internal server error"
        "An unexpected error occurred. Please try again later." :=
  ⟨rfl, rfl, rfl⟩

/-! ### Claim C4 -/

theorem foldl_minById_ne_none (db : List UserSharesRow) :
    ∀ b, db.foldl minById (some b) ≠ none := by
  induction db with
  | nil =>
      intro b h
      exact Option.noConfusion h
  | cons r t ih =>
      intro b
      show t.foldl minById (minById (some b) r) ≠ none
      by_cases h : r.id < b.id
      · simp only [minById, if_pos h]
        exact ih r
      · simp only [minById, if_neg h]
        exact ih b

theorem firstByIdAsc_eq_none_iff (db : List UserSharesRow) :
    firstByIdAsc db = none ↔ db = [] := by
  constructor
  · intro h
    cases db with
    | nil => rfl
    | cons r t =>
        exact absurd (by simpa [firstByIdAsc, minById] using h) (foldl_minById_ne_none t r)
  · intro h
    subst h
    rfl

theorem foldl_minById_spec (db : List UserSharesRow) :
    ∀ acc r, db.foldl minById acc = some r →
      (acc = some r ∨ r ∈ db) ∧
      (∀ b, acc = some b → r.id ≤ b.id) ∧
      (∀ x ∈ db, r.id ≤ x.id) := by
  induction db with
  | nil =>
      intro acc r h
      refine ⟨Or.inl h, ?_, by simp⟩
      intro b hb
      rw [hb] at h
      injection h with h'
      rw [h']
  | cons x t ih =>
      intro acc r h
      obtain ⟨hsrc, hacc, hmem⟩ := ih (minById acc x) r h
      obtain ⟨b0, hb0⟩ : ∃ b0, minById acc x = some b0 := by
        cases acc with
        | none => exact ⟨x, rfl⟩
        | some b =>
            by_cases hlt : x.id < b.id
            · exact ⟨x, by simp [minById, hlt]⟩
            · exact ⟨b, by simp [minById, hlt]⟩
      have hb0x : b0.id ≤ x.id ∧ (b0 = x ∨ acc = some b0) := by
        cases acc with
        | none =>
            simp only [minById] at hb0
            injection hb0 with h'
            exact ⟨by rw [← h'], Or.inl h'.symm⟩
        | some b =>
            by_cases hlt : x.id < b.id
            · simp only [minById, if_pos hlt] at hb0
              injection hb0 with h'
              exact ⟨by rw [← h'], Or.inl h'.symm⟩
            · simp only [minById, if_neg hlt] at hb0
              injection hb0 with h'
              refine ⟨by rw [← h']; omega, Or.inr (by rw [h'])⟩
      have hrb0 : r.id ≤ b0.id := hacc b0 hb0
      refine ⟨?_, ?_, ?_⟩
      · rcases hsrc with hs | hs
        · cases acc with
          | none =>
              simp only [minById] at hs
              injection hs with h'
              exact Or.inr (by rw [← h']; exact List.mem_cons_self x t)
          | some b =>
              by_cases hlt : x.id < b.id
              · simp only [minById, if_pos hlt] at hs
                injection hs with h'
                exact Or.inr (by rw [← h']; exact List.mem_cons_self x t)
              · simp only [minById, if_neg hlt] at hs
                injection hs with h'
                exact Or.inl (by rw [h'])
        · exact Or.inr (List.mem_cons_of_mem x hs)
      · intro b hb
        rw [hb] at hb0
        by_cases hlt : x.id < b.id
        · simp only [minById, if_pos hlt] at hb0
          injection hb0 with h'
          rw [← h'] at hrb0
          omega
        · simp only [minById, if_neg hlt] at hb0
          injection hb0 with h'
          rw [← h'] at hrb0
          exact hrb0
      · intro y hy
        rcases List.mem_cons.mp hy with rfl | hy'
        · have := hb0x.1
          omega
        · exact hmem y hy'

theorem firstByIdAsc_min (db : List UserSharesRow) (r : UserSharesRow)
    (h : firstByIdAsc db = some r) :
    r ∈ db ∧ ∀ x ∈ db, r.id ≤ x.id := by
  obtain ⟨hsrc, _, hmin⟩ := foldl_minById_spec db none r h
  rcases hsrc with h' | h'
  · exact Option.noConfusion h'
  · exact ⟨h', hmin⟩

/-- C4: `GET /api/user-shares/:wallet` returns the wallet's row when one
exists; when no row matches, it returns the first row of the table by
ascending `id` (a row of the table that has the minimal `id`); and it answers
404 exactly when the table is empty. -/
theorem c4_getUserShares_fallback (db : List UserSharesRow) (wallet : String) :
    (∀ r, db.find? (fun x => x.wallet_address == wallet) = some r →
      getUserShares db wallet = { status := 200, body := .sharesBody r }) ∧
    (db.find? (fun x => x.wallet_address == wallet) = none →
      ∀ r, firstByIdAsc db = some r →
        getUserShares db wallet = { status := 200, body := .sharesBody r } ∧
        r ∈ db ∧ (∀ x ∈ db, r.id ≤ x.id)) ∧
    (getUserShares db wallet
        = { status := 404, body := .err "No user shares data available" }
      ↔ db = []) := by
  refine ⟨?_, ?_, ?_, ?_⟩
  · intro r h
    simp [getUserShares, h]
  · intro h r hr
    obtain ⟨hmem, hmin⟩ := firstByIdAsc_min db r hr
    exact ⟨by simp [getUserShares, h, hr], hmem, hmin⟩
  · intro hresp
    cases hf : db.find? (fun x => x.wallet_address == wallet) with
    | some r =>
        rw [getUserShares] at hresp
        rw [hf] at hresp
        simp at hresp
    | none =>
        cases hfa : firstByIdAsc db with
        | some r =>
            rw [getUserShares] at hresp
            rw [hf, hfa] at hresp
            simp at hresp
        | none => exact (firstByIdAsc_eq_none_iff db).mp hfa
  · intro h
    subst h
    rfl

/-- C4 witness: a two-row table — a matching wallet gets its own row, a
missing wallet falls back to the row with the smallest `id`. -/
theorem c4_getUserShares_witness :
    getUserShares [c4RowA, c4RowB] "0xcccccccccccccccccccccccccccccccccccccccc"
      = { status := 200, body := .sharesBody c4RowB } ∧
    getUserShares [c4RowA, c4RowB] "0xdddddddddddddddddddddddddddddddddddddddd"
      = { status := 200, body := .sharesBody c4RowA } := by
  have h1 := c4_getUserShares_fallback [c4RowA, c4RowB]
    "0xcccccccccccccccccccccccccccccccccccccccc"
  have h2 := c4_getUserShares_fallback [c4RowA, c4RowB]
    "0xdddddddddddddddddddddddddddddddddddddddd"
  exact ⟨h1.1 c4RowB (by decide), (h2.2.1 (by decide) c4RowA (by decide)).1⟩

/-! ### Claim C5 -/

/-- C5: for a validated `days` (positive, at most 3650),
`GET /api/fund-performance/:id?days=N` returns the `min days` (number of
stored rows) most recent `fund_performance` rows of the fund, in ascending
date order (fetched descending, then reversed): the result has exactly
`min days filtered.length` rows, each a row of the fund's stored table, its
dates are pairwise ascending, and every stored row of the fund that is not
returned is no newer than every returned row — so the returned rows are the
most recent ones; against a fund with 30 stored rows and `days = 5` it
returns exactly 5 rows. -/
theorem c5_fund_performance (db : List PerfRow) (fundId days : Nat)
    (hd1 : 1 ≤ days) (hd2 : days ≤ 3650) :
    (getFundPerformance db fundId days).length
        = min days (db.filter (fun r => r.fund_id == fundId)).length ∧
    (getFundPerformance db fundId days).length ≤ days ∧
    List.Pairwise (fun a b => a.date ≤ b.date) (getFundPerformance db fundId days) ∧
    (∀ r ∈ getFundPerformance db fundId days,
      r ∈ db.filter (fun x => x.fund_id == fundId)) ∧
    (∀ r ∈ getFundPerformance db fundId days, r.fund_id = fundId) ∧
    (∀ x ∈ db.filter (fun r => r.fund_id == fundId),
      x ∉ getFundPerformance db fundId days →
      ∀ r ∈ getFundPerformance db fundId days, x.date ≤ r.date) ∧
    ((db.filter (fun r => r.fund_id == fundId)).length = 30 → days = 5 →
      (getFundPerformance db fundId days).length = 5) := by
  have hsorted : List.Pairwise (fun a b : PerfRow => b.date ≤ a.date)
      (List.insertionSort (fun a b => b.date ≤ a.date)
        (db.filter (fun r => r.fund_id == fundId))) :=
    List.sorted_insertionSort _ _
  have hmem : ∀ r ∈ getFundPerformance db fundId days,
      r ∈ db.filter (fun x => x.fund_id == fundId) := by
    intro r hr
    have hr1 : r ∈ (List.insertionSort (fun a b => b.date ≤ a.date)
        (db.filter (fun x => x.fund_id == fundId))).take days := by
      simpa [getFundPerformance, List.mem_reverse] using hr
    have hr2 := (List.take_sublist days _).subset hr1
    exact (List.perm_insertionSort (fun a b => b.date ≤ a.date) _).subset hr2
  refine ⟨?_, ?_, ?_, hmem, ?_, ?_, ?_⟩
  · show ((List.insertionSort (fun a b => b.date ≤ a.date)
        (db.filter (fun r => r.fund_id == fundId))).take days).reverse.length
      = min days (db.filter (fun r => r.fund_id == fundId)).length
    rw [List.length_reverse, List.length_take, List.length_insertionSort]
  · show ((List.insertionSort (fun a b => b.date ≤ a.date)
        (db.filter (fun r => r.fund_id == fundId))).take days).reverse.length ≤ days
    rw [List.length_reverse, List.length_take]
    exact Nat.min_le_left _ _
  · show List.Pairwise (fun a b => a.date ≤ b.date)
      ((List.insertionSort (fun a b => b.date ≤ a.date)
        (db.filter (fun r => r.fund_id == fundId))).take days).reverse
    exact List.pairwise_reverse.mpr
      (List.Pairwise.sublist (List.take_sublist days _) hsorted)
  · intro r hr
    simpa using (List.mem_filter.mp (hmem r hr)).2
  · intro x hx hnot r hr
    have hxs : x ∈ List.insertionSort (fun a b => b.date ≤ a.date)
        (db.filter (fun r => r.fund_id == fundId)) :=
      (List.perm_insertionSort (fun a b => b.date ≤ a.date) _).mem_iff.mpr hx
    have hxdrop : x ∈ (List.insertionSort (fun a b => b.date ≤ a.date)
        (db.filter (fun r => r.fund_id == fundId))).drop days := by
      have hnot' : x ∉ (List.insertionSort (fun a b => b.date ≤ a.date)
          (db.filter (fun r => r.fund_id == fundId))).take days := by
        intro hc
        exact hnot (by simpa [getFundPerformance, List.mem_reverse] using hc)
      rcases List.mem_append.mp
          (by rw [List.take_append_drop]; exact hxs :
            x ∈ (List.insertionSort (fun a b => b.date ≤ a.date)
              (db.filter (fun r => r.fund_id == fundId))).take days ++
              (List.insertionSort (fun a b => b.date ≤ a.date)
                (db.filter (fun r => r.fund_id == fundId))).drop days)
        with hc | hc
      · exact absurd hc hnot'
      · exact hc
    have hr1 : r ∈ (List.insertionSort (fun a b => b.date ≤ a.date)
        (db.filter (fun x => x.fund_id == fundId))).take days := by
      simpa [getFundPerformance, List.mem_reverse] using hr
    have hsplit := hsorted
    rw [← List.take_append_drop days
      (List.insertionSort (fun a b => b.date ≤ a.date)
        (db.filter (fun r => r.fund_id == fundId)))] at hsplit
    exact (List.pairwise_append.mp hsplit).2.2 r hr1 x hxdrop
  · intro h30 h5
    subst h5
    show ((List.insertionSort (fun a b => b.date ≤ a.date)
        (db.filter (fun r => r.fund_id == fundId))).take 5).reverse.length = 5
    rw [List.length_reverse, List.length_take, List.length_insertionSort, h30]
    decide

/-- C5 witness: a fund with 30 daily rows (dates 1 to 30) queried with
`days = 5` yields exactly 5 rows, and the stored day-1 row — which is not
among them — is no newer than any returned row. -/
theorem c5_fund_performance_witness :
    (getFundPerformance c5Db 1 5).length ≤ 5 ∧
    (getFundPerformance c5Db 1 5).length = 5 ∧
    (∀ r ∈ getFundPerformance c5Db 1 5,
      ({ fund_id := 1, date := 1, nav_per_share := 0, total_aum := 0,
         daily_return := 0 } : PerfRow).date ≤ r.date) := by
  have h := c5_fund_performance c5Db 1 5 (by decide) (by decide)
  refine ⟨h.2.1, h.2.2.2.2.2.2 (by decide) rfl, ?_⟩
  exact h.2.2.2.2.2.1
    { fund_id := 1, date := 1, nav_per_share := 0, total_aum := 0, daily_return := 0 }
    (by decide) (by decide)

/-! ### Claim C8 -/

theorem toLower_toNat_of_upper (c : Char) (h1 : 65 ≤ c.toNat) (h2 : c.toNat ≤ 90) :
    (Char.toLower c).toNat = c.toNat + 32 := by
  have hv : (c.toNat + 32).isValidChar := by
    left
    omega
  simp only [Char.toLower, ge_iff_le]
  rw [if_pos ⟨h1, h2⟩, Char.ofNat, dif_pos hv]
  simp [Char.ofNatAux, Char.toNat, UInt32.toNat, BitVec.toNat_ofNatLt]

theorem toLower_eq_of_not_upper (c : Char) (h : ¬ (65 ≤ c.toNat ∧ c.toNat ≤ 90)) :
    Char.toLower c = c := by
  simp only [Char.toLower, ge_iff_le]
  rw [if_neg h]

theorem hexDigit_toLower (c : Char) (h : hexDigit c = true) :
    hexDigit (Char.toLower c) = true := by
  by_cases hc : 65 ≤ c.toNat ∧ c.toNat ≤ 90
  · have hn := toLower_toNat_of_upper c hc.1 hc.2
    simp only [hexDigit, Bool.or_eq_true, Bool.and_eq_true, decide_eq_true_eq] at h ⊢
    rw [hn]
    omega
  · rw [toLower_eq_of_not_upper c hc]
    exact h

theorem ethAddr_map_toLower (cs : List Char) (h : ethAddrChars cs = true) :
    ethAddrChars (cs.map Char.toLower) = true := by
  simp only [ethAddrChars, Bool.and_eq_true, beq_iff_eq] at h ⊢
  obtain ⟨⟨hlen, htake⟩, hall⟩ := h
  refine ⟨⟨?_, ?_⟩, ?_⟩
  · rw [List.length_map]
    exact hlen
  · rw [← List.map_take, htake]
    rfl
  · rw [← List.map_drop]
    simp only [List.all_eq_true] at hall ⊢
    intro x hx
    rcases List.mem_map.mp hx with ⟨y, hy, rfl⟩
    exact hexDigit_toLower y (hall y hy)

theorem handleGetUser_userGetPath (addr : String) (db : List UserRow) :
    handleGetUser (userGetPath addr) db = userGetCore addr.data db := rfl

/-- C8 counterexample: a malformed address such as `0x123` never reaches the
handler's 400 branch — the route regex fails to match, so the request falls
through to the unmatched-route response `404 {error:"Not found"}`, not 400. -/
theorem c8_counterexample :
    handleGetUser "/api/user/0x123".data [] = { status := 404, body := .err "Not found" } ∧
    (handleGetUser "/api/user/0x123".data []).status ≠ 400 := by
  decide

/-- C8 amended: `GET /api/user/{address}` answers `404 {error:"Not found"}`
(the unmatched-route response) when the address is not well-formed — the
in-handler 400 branch is unreachable because the route regex already enforces
the address shape; it answers `404 {error:"User not found"}` when the address
is well-formed but no user row matches its lowercased form, and 200 with the
user row otherwise. -/
theorem c8_get_user_route (addr : String) (db : List UserRow) :
    (ethAddrChars addr.data = false →
      handleGetUser (userGetPath addr) db = { status := 404, body := .err "Not found" }) ∧
    (ethAddrChars addr.data = true →
      (findUser db (jsToLowerCase addr) = none →
        handleGetUser (userGetPath addr) db
          = { status := 404, body := .err "User not found" }) ∧
      (∀ u, findUser db (jsToLowerCase addr) = some u →
        handleGetUser (userGetPath addr) db = { status := 200, body := .userBody u })) := by
  rw [handleGetUser_userGetPath]
  constructor
  · intro h
    simp [userGetCore, h]
  · intro h
    have hlow : isValidEthereumAddress (⟨addr.data.map Char.toLower⟩ : String) = true :=
      ethAddr_map_toLower _ h
    constructor
    · intro hnone
      rw [jsToLowerCase] at hnone
      simp only [userGetCore, h, if_true, hlow, Bool.not_true, Bool.false_eq_true, if_false]
      rw [hnone]
    · intro u hsome
      rw [jsToLowerCase] at hsome
      simp only [userGetCore, h, if_true, hlow, Bool.not_true, Bool.false_eq_true, if_false]
      rw [hsome]

/-- C8 witness: a well-formed mixed-case address — 404 `User not found` on an
empty table, 200 with the row when the lowercased address is stored. -/
theorem c8_get_user_route_witness :
    handleGetUser (userGetPath "0xABCDEF0123456789ABCDEF0123456789ABCDEF01") []
      = { status := 404, body := .err "User not found" } ∧
    handleGetUser (userGetPath "0xABCDEF0123456789ABCDEF0123456789ABCDEF01") [c8User]
      = { status := 200, body := .userBody c8User } := by
  have h1 := (c8_get_user_route "0xABCDEF0123456789ABCDEF0123456789ABCDEF01" []).2
    (by decide)
  have h2 := (c8_get_user_route "0xABCDEF0123456789ABCDEF0123456789ABCDEF01" [c8User]).2
    (by decide)
  exact ⟨h1.1 (by decide), h2.2 c8User (by decide)⟩

end A11
